import Mathlib

/-!
Verification of the task router (`krolik/llm/router.py`).

Task texts are modelled as `List Char`.  Python floats are modelled by `ℚ`
(the constants 0.4, 0.3 and 0.5 are the exact rationals 2/5, 3/10 and 1/2);
this is exact for every property stated here, none of which depends on
binary floating-point rounding.  The global model registry `MODELS` and the
router construction flags are passed as explicit parameters `reg` / `cfg`,
and the in-memory outcome log `self._outcomes` as the parameter `outcomes`.
-/

namespace Krolik

/-! ### Character-level helpers (Python `str` / `re` semantics) -/

/-- Python `str.lower`, restricted to the Latin and Cyrillic letters that can
occur in the router's keyword tables (`А`-`Я` and `Ё` are the only uppercase
letters the tables' lowercase entries can arise from). -/
def pyLowerChar (c : Char) : Char :=
  if 'A' ≤ c ∧ c ≤ 'Z' then Char.ofNat (c.toNat + 32)
  else if 'А' ≤ c ∧ c ≤ 'Я' then Char.ofNat (c.toNat + 32)
  else if c = 'Ё' then 'ё'
  else c

def pyLower (s : List Char) : List Char := s.map pyLowerChar

/-- Python regex `\w` (word character) for the character classes relevant to
this code base: ASCII alphanumerics, underscore, and Cyrillic letters. -/
def isWordChar (c : Char) : Bool :=
  c.isAlphanum || c = '_' ||
    decide ('а' ≤ c ∧ c ≤ 'я') || decide ('А' ≤ c ∧ c ≤ 'Я') || c = 'ё' || c = 'Ё'

/-- Python regex `\d` (ASCII decimal digit). -/
def isPyDigit (c : Char) : Bool := '0' ≤ c && c ≤ '9'

/-- Python `str.split()` whitespace class. -/
def isPySpace (c : Char) : Bool :=
  c = ' ' || c = '\t' || c = '\n' || c = '\r' || c = '\x0b' || c = '\x0c'

/-- Substring test: Python's `needle in haystack`. -/
def isSubstr (p : List Char) : List Char → Bool
  | [] => p.isEmpty
  | c :: cs => p.isPrefixOf (c :: cs) || isSubstr p cs

/-- Python `str.count` for a two-character pattern (the router only counts
the literal patterns `"- "`, `"* "` and `"\n"`): non-overlapping
left-to-right occurrences. -/
def countSub2 (a b : Char) : List Char → Nat
  | [] => 0
  | [_] => 0
  | c :: d :: rest =>
    if c = a ∧ d = b then 1 + countSub2 a b rest else countSub2 a b (d :: rest)

/-- Python `str.count` for a single-character pattern. -/
def countChar (a : Char) : List Char → Nat
  | [] => 0
  | c :: cs => (if c = a then 1 else 0) + countChar a cs

/-- Python `str.split()` (split on whitespace runs, dropping empty parts);
`acc` holds the current word, reversed. -/
def splitWsAux : List Char → List Char → List (List Char)
  | [], acc => if acc.isEmpty then [] else [acc.reverse]
  | c :: cs, acc =>
    if isPySpace c then
      if acc.isEmpty then splitWsAux cs [] else acc.reverse :: splitWsAux cs []
    else splitWsAux cs (c :: acc)

def pySplitWs (s : List Char) : List (List Char) := splitWsAux s []

/-! ### Keyword tables (router.py lines 30-84) -/

def TIER_THRESHOLDS : List (String × (Int × Int)) :=
  [("free", (0, 25)), ("cheap", (26, 45)), ("standard", (46, 70)), ("premium", (71, 100))]

def BASE_SCORES : List (String × Int) :=
  [("trivial", 10), ("simple", 20), ("content", 35), ("general", 35),
   ("code", 50), ("research", 50), ("analysis", 60), ("architect", 80)]

def COMPLEXITY_KEYWORDS : List (List Char × Int) :=
  ([("architect", 25), ("design system", 25), ("security audit", 25),
    ("refactor entire", 25), ("performance optimization", 20),
    ("rewrite", 20), ("migrate", 18), ("integrate", 15), ("complex", 15),
    ("analyze", 12), ("debug", 12), ("implement", 10), ("add feature", 10),
    ("create", 8), ("build", 8), ("fix bug", 6), ("update", 5),
    ("format", -10), ("rename", -10), ("typo", -15), ("comment", -8),
    ("simple", -15), ("quick", -10), ("trivial", -15), ("lint", -12),
    ("архитектур", 25), ("спроектир", 25), ("безопасност", 20),
    ("рефактор", 20), ("оптимизир", 15), ("мигрир", 18), ("интегрир", 15),
    ("сложн", 15), ("комплексн", 15), ("анализ", 12), ("отладк", 12),
    ("реализ", 10), ("создай подборк", 12), ("напиши статью", 10),
    ("создай", 8), ("напиши", 6), ("исправ", 5), ("обнов", 5),
    ("глубокий анализ", 20), ("техническ", 12),
    ("делегируй", 10), ("оркестрируй", 12), ("распараллель", 15),
    ("парс", 8), ("спарс", 8), ("seo", 10),
    ("опечатк", -15), ("простой", -12), ("быстро", -10), ("мелк", -10),
    ("перевед", 5)] : List (String × Int)).map fun p => (p.1.toList, p.2)

def RESEARCH_KEYWORDS : List (List Char) :=
  (["research", "find out", "search for", "compare", "alternatives",
    "what is", "how does", "explore", "investigate", "benchmark",
    "latest", "news", "look up",
    "исследуй", "найди информацию", "сравни", "альтернатив",
    "что такое", "как работает", "изучи", "проанализируй рынок"] :
    List String).map String.toList

/-! ### Data types (router.py lines 90-148, models.py) -/

inductive Tier where
  | free | cheap | standard | premium | research
deriving DecidableEq, Repr

def Tier.value : Tier → String
  | .free => "free" | .cheap => "cheap" | .standard => "standard"
  | .premium => "premium" | .research => "research"

inductive Capability where
  | chat | code | vision | reasoning | search | long_context
deriving DecidableEq, Repr

structure ModelSpec where
  id : String
  provider : String
  tier : Tier
  cost_per_1m_input : ℚ := 0
  cost_per_1m_output : ℚ := 0
  priority : Int := 50
  speed : Int := 3
  capabilities : List Capability := []
deriving DecidableEq, Repr

def ModelSpec.isFree (m : ModelSpec) : Bool :=
  decide (m.cost_per_1m_input = 0) && decide (m.cost_per_1m_output = 0)

structure OutcomeRecord where
  signature : List Char
  model_id : String
  outcome : String
  task_preview : List Char := []
  timestamp : ℚ := 0
  latency_ms : Int := 0
deriving DecidableEq, Repr

structure RouteResult where
  model : ModelSpec
  tier : Tier
  score : Int
  reason : String
  signature : List Char
  task_type : String
  fallbacks : List ModelSpec
  composite_score : ℚ
  alternatives : List String
deriving DecidableEq, Repr

/-- Router construction flags (`prefer_free_providers`, `available_providers`). -/
structure RouterConfig where
  preferFree : Bool := true
  availableProviders : Option (List String) := none
deriving DecidableEq, Repr

/-- `ModelRegistry.list_by_tier` over the registry contents. -/
def listByTier (reg : List ModelSpec) (t : Tier) : List ModelSpec :=
  reg.filter fun m => decide (m.tier = t)

/-- First-match association-list lookup (Python `dict` indexing / `.get`). -/
def alookup {β : Type} (k : String) : List (String × β) → Option β
  | [] => none
  | p :: ps => if p.1 = k then some p.2 else alookup k ps

/-! ### Outcome store (router.py lines 236-294) -/

/-- `ModelRouter.get_success_rate`. -/
def getSuccessRate (outcomes : List OutcomeRecord) (modelId : String) : ℚ :=
  let relevant := outcomes.filter fun o => decide (o.model_id = modelId)
  if relevant.isEmpty then 1
  else ((relevant.filter fun o => decide (o.outcome = "success")).length : ℚ) /
    (relevant.length : ℚ)

/-- Python `int(·)` on a rational (truncation toward zero). -/
def pyInt (q : ℚ) : Int := if q < 0 then -Int.floor (-q) else Int.floor q

/-- `ModelRouter.get_avg_latency`. -/
def getAvgLatency (outcomes : List OutcomeRecord) (modelId : String) : Int :=
  let relevant := outcomes.filter fun o =>
    decide (o.model_id = modelId) && decide (0 < o.latency_ms)
  if relevant.isEmpty then 2000
  else pyInt (((relevant.map fun o => o.latency_ms).sum : ℚ) / (relevant.length : ℚ))

/-! ### Task type detection (router.py lines 298-315) -/

/-- Existence of a match for the regex fragment `p1.*p2` (Python `.` does not
match a newline): an occurrence of `p1` followed, with no intervening
newline, by an occurrence of `p2`. -/
def dotStarMatch (p1 p2 : List Char) (s : List Char) : Bool :=
  (List.range (s.length + 1)).any fun i =>
    p1.isPrefixOf (s.drop i) &&
      ((List.range (s.length + 1)).any fun k =>
        !((s.drop (i + p1.length)).take k).contains '\n' &&
          p2.isPrefixOf ((s.drop (i + p1.length)).drop k))

/-- `re.search` of an alternation of literal fragments. -/
def regexAnyLit (pats : List String) (s : List Char) : Bool :=
  pats.any fun p => isSubstr p.toList s

/-- `ModelRouter._detect_task_type`. -/
def detectTaskType (task : List Char) : String :=
  let lower := pyLower task
  if RESEARCH_KEYWORDS.any fun kw => isSubstr kw lower then "research"
  else if isSubstr "architect".toList lower || dotStarMatch "design".toList "system".toList lower
      || isSubstr "infrastructure".toList lower then "architect"
  else if regexAnyLit ["typo", "format", "rename", "lint"] lower then "trivial"
  else if regexAnyLit ["simple", "quick", "trivial"] lower then "simple"
  else if regexAnyLit ["code", "implement", "function", "class", "module", "api"] lower then "code"
  else if regexAnyLit ["write", "article", "content", "blog", "documentation"] lower then "content"
  else if regexAnyLit ["analyze", "report", "data", "metrics"] lower then "analysis"
  else "general"

/-! ### Scoring engine (router.py lines 319-358) -/

/-- The keyword loop of `_score_task`: accumulate every matching keyword's
modifier over the lower-cased task. -/
def kwScore (lower : List Char) : Int :=
  COMPLEXITY_KEYWORDS.foldl (fun acc p => if isSubstr p.1 lower then acc + p.2 else acc) 0

def wordCount (task : List Char) : Nat := (pySplitWs task).length

/-- Length adjustment: `+10` above 50 words, `-5` below 10 words. -/
def wordAdj (task : List Char) : Int :=
  if wordCount task > 50 then 10 else if wordCount task < 10 then -5 else 0

/-- Code-fence adjustment: `+8` when the task contains three backticks. -/
def codeAdj (task : List Char) : Int :=
  if isSubstr "```".toList task then 8 else 0

def bulletCount (task : List Char) : Nat :=
  countSub2 '-' ' ' task + countSub2 '*' ' ' task + countChar '\n' task

/-- Bullet adjustment: `+10` when more than five bullet/newline markers. -/
def bulletAdj (task : List Char) : Int :=
  if bulletCount task > 5 then 10 else 0

/-- `_score_task` up to (not including) the learning adjustment and the final
clamp: base score for the task type plus keyword, length, code-fence and
bullet adjustments. -/
def scoreCore (task : List Char) (taskType : String) : Int :=
  (alookup taskType BASE_SCORES).getD 40 + kwScore (pyLower task)
    + wordAdj task + codeAdj task + bulletAdj task

/-- The learning condition of `_score_task`: some model of the free tier has
a recorded success rate below 0.5. -/
def freeLowSuccess (reg : List ModelSpec) (outcomes : List OutcomeRecord) : Bool :=
  (listByTier reg Tier.free).any fun fm => decide (getSuccessRate outcomes fm.id < 1 / 2)

/-- `ModelRouter._score_task`. -/
def scoreTask (reg : List ModelSpec) (outcomes : List OutcomeRecord)
    (task : List Char) (taskType : String) : Int :=
  let s := scoreCore task taskType
  let freeHigh := ((alookup "free" TIER_THRESHOLDS).getD (0, 25)).2
  let cheapLow := ((alookup "cheap" TIER_THRESHOLDS).getD (26, 45)).1
  let s := if freeLowSuccess reg outcomes && decide (s < freeHigh) then cheapLow + 5 else s
  max 5 (min 95 s)

def tierOfName (name : String) : Tier :=
  if name = "free" then .free else if name = "cheap" then .cheap
  else if name = "standard" then .standard else if name = "premium" then .premium
  else .research

/-- `ModelRouter._score_to_tier`. -/
def scoreToTier (score : Int) (isResearch : Bool) : Tier :=
  if isResearch then .research
  else
    match TIER_THRESHOLDS.findSome? (fun p =>
        if p.2.1 ≤ score ∧ score ≤ p.2.2 then some (tierOfName p.1) else none) with
    | some t => t
    | none => if score > 85 then .premium else .free

/-! ### Signature computation (router.py lines 360-367) -/

def EXTENSIONS : List (List Char) :=
  (["py", "js", "ts", "tsx", "sh", "md", "json", "yaml", "yml"] : List String).map
    String.toList

/-- Try the extension alternation `(py|js|ts|tsx|sh|md|json|yaml|yml)` at the
text following a dot, in source order with the trailing `\b` required
(so `ts` loses to `tsx` on `"a.tsx"`); returns the matched extension and the
remaining text. -/
def extTry (s : List Char) : Option (List Char × List Char) :=
  EXTENSIONS.findSome? fun ext =>
    if ext.isPrefixOf s then
      match s.drop ext.length with
      | [] => some (ext, [])
      | d :: rest => if isWordChar d then none else some (ext, d :: rest)
    else none

/-- One left-to-right scan of `re.sub(r"\b\w+\.(py|…|yml)\b", r"FILE.\1", s)`:
`prev` is the character before the current position (`none` at the start),
`fuel` bounds the recursion by the remaining length. -/
def fileSubGo : Nat → Option Char → List Char → List Char
  | 0, _, s => s
  | _ + 1, _, [] => []
  | fuel + 1, prev, c :: cs =>
    let boundary := match prev with | none => true | some p => !isWordChar p
    if boundary && isWordChar c then
      let run := c :: cs.takeWhile isWordChar
      let rest := cs.dropWhile isWordChar
      match rest with
      | '.' :: rest2 =>
        match extTry rest2 with
        | some (ext, rest3) =>
          "FILE.".toList ++ ext ++ fileSubGo fuel (some (ext.getLastD '.')) rest3
        | none => run ++ fileSubGo fuel (some (run.getLastD c)) rest
      | _ => run ++ fileSubGo fuel (some (run.getLastD c)) rest
    else c :: fileSubGo fuel (some c) cs

def fileSub (s : List Char) : List Char := fileSubGo s.length none s

/-- `re.sub(r"\d+", "N", s)`: replace every maximal digit run by `N`.
The boolean records whether the previous character was a digit. -/
def digitSubGo : Bool → List Char → List Char
  | _, [] => []
  | inRun, c :: cs =>
    if isPyDigit c then (if inRun then [] else ['N']) ++ digitSubGo true cs
    else c :: digitSubGo false cs

def digitSub (s : List Char) : List Char := digitSubGo false s

/-- `" ".join(s.split())`. -/
def collapseWs (s : List Char) : List Char := List.intercalate [' '] (pySplitWs s)

/-- The normalization pipeline of `_compute_signature`: lower-case, replace
filename-like tokens, replace digit runs, collapse whitespace. -/
def normalizeTask (task : List Char) : List Char :=
  collapseWs (digitSub (fileSub (pyLower task)))

def hexDigit (n : Nat) : Char := "0123456789abcdef".toList.getD n '0'

/-- Modelled from the spec: the source hashes the normalized task with
`hashlib.md5` (Python standard library, not part of this repository) and
keeps the first 12 characters of the hex digest.  The digest is modelled by
a concrete 48-bit polynomial digest rendered as 12 hex characters; every
theorem in this development depends only on the digest being a fixed
deterministic function of the normalized text. -/
def md5Hex12 (s : List Char) : List Char :=
  let h := s.foldl (fun a c => (a * 131 + c.toNat) % (2 ^ 48)) 7
  (List.range 12).map fun i => hexDigit (h / 16 ^ (11 - i) % 16)

/-- `ModelRouter._compute_signature`. -/
def computeSignature (task : List Char) : List Char := md5Hex12 (normalizeTask task)

/-! ### Composite scoring and model selection (router.py lines 371-413) -/

/-- `ModelRouter._composite_score` (float constants 0.4 and 0.3 as exact
rationals). -/
def compositeScore (outcomes : List OutcomeRecord) (m : ModelSpec) : ℚ :=
  let successRate := getSuccessRate outcomes m.id * 100
  let avgLatency := getAvgLatency outcomes m.id
  let latencyPenalty := min 30 ((avgLatency : ℚ) / 200)
  max 0 (min 100 ((m.priority : ℚ) * (2 / 5) + successRate * (3 / 10)
    + (m.speed : ℚ) * 4 - latencyPenalty))

/-- Stable descending insertion by composite score (matches Python's stable
`sort(key=…, reverse=True)`: ties keep candidate order). -/
def insertByScore (x : ModelSpec × ℚ) : List (ModelSpec × ℚ) → List (ModelSpec × ℚ)
  | [] => [x]
  | y :: ys => if x.2 < y.2 then y :: insertByScore x ys else x :: y :: ys

def sortByScoreDesc (l : List (ModelSpec × ℚ)) : List (ModelSpec × ℚ) :=
  l.foldr insertByScore []

/-- `ModelRouter._select_model`. -/
def selectModel (reg : List ModelSpec) (outcomes : List OutcomeRecord)
    (cfg : RouterConfig) (tier : Tier) (cap : Option Capability) : Option ModelSpec :=
  let candidates := listByTier reg tier
  let candidates := match cap with
    | some c => candidates.filter fun (m : ModelSpec) => decide (c ∈ m.capabilities)
    | none => candidates
  let candidates := match cfg.availableProviders with
    | some ps => if ps.isEmpty then candidates
        else candidates.filter fun (m : ModelSpec) => decide (m.provider ∈ ps)
    | none => candidates
  if candidates.isEmpty then none
  else
    let scored := candidates.map fun c => (c, compositeScore outcomes c)
    let sorted := sortByScoreDesc scored
    let chosen :=
      if cfg.preferFree then
        match sorted.filter fun (p : ModelSpec × ℚ) => p.1.isFree with
        | [] => sorted.head?
        | f :: _ => some f
      else sorted.head?
    chosen.map Prod.fst

/-! ### Fallback chain (router.py lines 415-442) -/

/-- The per-candidate capability and provider filters of `_build_fallbacks`. -/
def fallbackOk (cfg : RouterConfig) (cap : Option Capability) (m : ModelSpec) : Bool :=
  (match cap with | none => true | some c => decide (c ∈ m.capabilities)) &&
  (match cfg.availableProviders with
   | none => true
   | some ps => ps.isEmpty || decide (m.provider ∈ ps))

/-- One loop iteration of the `_add_candidates` closure: state is
(fallbacks so far, seen ids); a candidate passing the id/capability/provider
checks is appended and its id marked seen. -/
def fbStep (cfg : RouterConfig) (cap : Option Capability)
    (st : List ModelSpec × List String) (c : ModelSpec) : List ModelSpec × List String :=
  if decide (c.id ∈ st.2) then st
  else if fallbackOk cfg cap c then (st.1 ++ [c], st.2 ++ [c.id]) else st

/-- The `_add_candidates` closure. -/
def addCandidates (cfg : RouterConfig) (cap : Option Capability)
    (st : List ModelSpec × List String) (cands : List ModelSpec) :
    List ModelSpec × List String :=
  cands.foldl (fbStep cfg cap) st

def TIER_ORDER : List Tier := [Tier.free, Tier.cheap, Tier.standard, Tier.premium]

/-- The state of `_build_fallbacks` after adding same-tier candidates and the
candidates of every higher tier of `tier_order`. -/
def buildFallbacksState (reg : List ModelSpec) (cfg : RouterConfig) (tier : Tier)
    (primary : ModelSpec) (cap : Option Capability) : List ModelSpec × List String :=
  match TIER_ORDER.findIdx? (fun t => decide (t = tier)) with
  | some idx => (TIER_ORDER.drop (idx + 1)).foldl
      (fun st t => addCandidates cfg cap st (listByTier reg t))
      (addCandidates cfg cap ([], [primary.id]) (listByTier reg tier))
  | none => addCandidates cfg cap ([], [primary.id]) (listByTier reg tier)

/-- `ModelRouter._build_fallbacks` (`fallbacks[:4]`). -/
def buildFallbacks (reg : List ModelSpec) (cfg : RouterConfig) (tier : Tier)
    (primary : ModelSpec) (cap : Option Capability) : List ModelSpec :=
  (buildFallbacksState reg cfg tier primary cap).1.take 4

/-! ### Reasoning string (router.py lines 446-463) -/

/-- Python `f"{x:.0f}"` (round half to even). -/
def pyRound (q : ℚ) : Int :=
  let f := Int.floor q
  let r := q - (f : ℚ)
  if r < 1 / 2 then f else if 1 / 2 < r then f + 1
  else if f % 2 = 0 then f else f + 1

/-- `ModelRouter._build_reasoning`. -/
def buildReasoning (taskType : String) (score : Int) (tier : Tier)
    (model : ModelSpec) (composite : ℚ) : String :=
  let parts := ["type=" ++ taskType,
    "base=" ++ toString ((alookup taskType BASE_SCORES).getD 40),
    "→" ++ tier.value ++ "(score=" ++ toString score ++ ")",
    "model=" ++ model.id]
  let parts := if composite ≠ 50 then parts ++ ["rating=" ++ toString (pyRound composite)]
    else parts
  String.intercalate " | " parts

/-! ### Routing (router.py lines 180-234) -/

def ESCALATION_ORDER : List Tier := [Tier.cheap, Tier.standard, Tier.premium, Tier.free]

/-- `ModelRouter.route`. -/
def route (reg : List ModelSpec) (outcomes : List OutcomeRecord) (cfg : RouterConfig)
    (task : List Char) (cap : Option Capability) : Except String RouteResult :=
  let taskType := detectTaskType task
  let isResearch := taskType == "research"
  let score := scoreTask reg outcomes task taskType
  let tier0 := scoreToTier score isResearch
  let signature := computeSignature task
  let picked : Option (Tier × ModelSpec) :=
    match selectModel reg outcomes cfg tier0 cap with
    | some m => some (tier0, m)
    | none =>
      (ESCALATION_ORDER.filter fun t => decide (t ≠ tier0)).findSome? fun t =>
        (selectModel reg outcomes cfg t cap).map fun m => (t, m)
  match picked with
  | none => .error "No suitable model found for any tier"
  | some (tier, model) =>
    let fallbacks := buildFallbacks reg cfg tier model cap
    let composite := compositeScore outcomes model
    .ok { model := model, tier := tier, score := score,
          reason := buildReasoning taskType score tier model composite,
          signature := signature, task_type := taskType, fallbacks := fallbacks,
          composite_score := composite,
          alternatives := (fallbacks.take 3).map fun f => f.id }

/-! ### Outcome recording (router.py lines 236-258) -/

/-- The record built by `record_outcome` (`time.time()` passed as `now`). -/
def mkOutcomeRecord (modelId : String) (task : List Char) (success : Bool)
    (latencyMs : Int) (now : ℚ) : OutcomeRecord :=
  { signature := computeSignature task, model_id := modelId,
    outcome := if success then "success" else "fail",
    task_preview := task.take 100, timestamp := now, latency_ms := latencyMs }

/-- The in-memory effect of `record_outcome` on `self._outcomes`: append, then
keep only the most recent 500 records whenever the length exceeds 1000. -/
def recordOutcome (outcomes : List OutcomeRecord) (r : OutcomeRecord) :
    List OutcomeRecord :=
  let l := outcomes ++ [r]
  if l.length > 1000 then l.drop (l.length - 500) else l

/-! ### Statistics (router.py lines 274-294) -/

/-- The per-model accumulator dict value of `get_stats`. -/
structure MStat where
  total : Nat
  success : Nat
  latencies : List Int
deriving DecidableEq, Repr

def statsUpd (s : MStat) (o : OutcomeRecord) : MStat :=
  { total := s.total + 1,
    success := if o.outcome = "success" then s.success + 1 else s.success,
    latencies := if 0 < o.latency_ms then s.latencies ++ [o.latency_ms] else s.latencies }

/-- One iteration of the `get_stats` loop: ensure the model's entry exists
(insertion order, as in a Python dict), then update it in place. -/
def statsIns (acc : List (String × MStat)) (o : OutcomeRecord) : List (String × MStat) :=
  (if acc.any fun p => decide (p.1 = o.model_id) then acc
   else acc ++ [(o.model_id, ⟨0, 0, []⟩)]).map
    fun p => if p.1 = o.model_id then (p.1, statsUpd p.2 o) else p

def statsRaw (outcomes : List OutcomeRecord) : List (String × MStat) :=
  outcomes.foldl statsIns []

structure StatEntry where
  total : Nat
  success_rate : ℚ
  avg_latency_ms : Int
deriving DecidableEq, Repr

/-- The per-model result row of `get_stats`. -/
def mkStatEntry (s : MStat) : StatEntry :=
  { total := s.total,
    success_rate := (s.success : ℚ) / (max s.total 1 : ℕ),
    avg_latency_ms := pyInt ((s.latencies.sum : ℚ) / (max s.latencies.length 1 : ℕ)) }

/-- `ModelRouter.get_stats` (an insertion-ordered association list models the
returned dict). -/
def getStats (outcomes : List OutcomeRecord) : List (String × StatEntry) :=
  (statsRaw outcomes).map fun p => (p.1, mkStatEntry p.2)

/-! ### Auxiliary notions used by the theorems -/

/-- `noNewMatch k kw = true` certifies that appending `' ' :: kw` to any text
cannot create a new occurrence of the keyword `k`: `k` does not occur inside
`' ' :: kw`, and no proper nonempty suffix of `k` is a prefix of `' ' :: kw`
(so no occurrence can straddle the junction). -/
def noNewMatch (k kw : List Char) : Bool :=
  !(isSubstr k (' ' :: kw)) &&
    (List.range k.length).all fun i => i == 0 || !((k.drop i).isPrefixOf (' ' :: kw))

/-- Extract the payload of a successful routing call. -/
def okResult (e : Except String RouteResult) (d : RouteResult) : RouteResult :=
  match e with
  | .ok r => r
  | .error _ => d

/-- Invariant of the `_build_fallbacks` accumulation state: the primary id is
among the seen ids, collected fallbacks avoid the primary id, satisfy the
requested capability, have pairwise distinct ids, and their ids are all
seen. -/
def FbInv (primaryId : String) (cap : Option Capability)
    (st : List ModelSpec × List String) : Prop :=
  primaryId ∈ st.2 ∧
  (∀ f ∈ st.1, f.id ≠ primaryId) ∧
  (∀ f ∈ st.1, ∀ c, cap = some c → c ∈ f.capabilities) ∧
  (st.1.map fun f => f.id).Nodup ∧
  (∀ f ∈ st.1, f.id ∈ st.2)

/-! ### Concrete fixtures for witnesses and counterexamples -/

def freeModelW : ModelSpec := { id := "free-a", provider := "prov", tier := Tier.free }

def freeModelW2 : ModelSpec := { id := "free-b", provider := "prov", tier := Tier.free }

def cheapModelW : ModelSpec :=
  { id := "cheap-a", provider := "prov", tier := Tier.cheap, cost_per_1m_input := 1 / 100 }

def regW6 : List ModelSpec := [freeModelW, freeModelW2, cheapModelW]

def defaultRR : RouteResult :=
  { model := freeModelW, tier := Tier.free, score := 0, reason := "", signature := [],
    task_type := "", fallbacks := [], composite_score := 0, alternatives := [] }

def failRecW : OutcomeRecord := { signature := [], model_id := "free-a", outcome := "fail" }

def fixtureTaskC7 : List Char := "мелк aa bb cc dd ee ff gg hh ii".toList

def taskZ50 : List Char :=
  ("z z z z z z z z z z z z z z z z z z z z z z z z z "
    ++ "z z z z z z z z z z z z z z z z z z z z z z z z z").toList

def outcomesW8 : List OutcomeRecord :=
  [{ signature := [], model_id := "m", outcome := "success" },
   { signature := [], model_id := "m", outcome := "success" },
   { signature := [], model_id := "m", outcome := "fail" }]

def recW9 : OutcomeRecord := { signature := [], model_id := "m", outcome := "success" }

def bigW9 : List OutcomeRecord := List.replicate 1000 recW9

def outcomesW10 : List OutcomeRecord :=
  [{ signature := [], model_id := "m", outcome := "success", latency_ms := 100 },
   { signature := [], model_id := "m", outcome := "fail", latency_ms := 200 },
   { signature := [], model_id := "n", outcome := "success", latency_ms := 0 }]

set_option maxRecDepth 40000

/-! ### Substring infrastructure -/

theorem isSubstr_iff (p s : List Char) : isSubstr p s = true ↔ p <:+: s := by
  induction s with
  | nil => simp [isSubstr, List.isEmpty_iff]
  | cons c cs ih =>
    simp [isSubstr, List.infix_cons_iff, List.isPrefixOf_iff_prefix, ih]

theorem substr_append_right {p a : List Char} (b : List Char) (h : isSubstr p a = true) :
    isSubstr p (a ++ b) = true := by
  rw [isSubstr_iff] at h ⊢
  exact h.trans ⟨[], b, by simp⟩

theorem infix_append_cases {α : Type} {p a b : List α} (h : p <:+: a ++ b) :
    p <:+: a ∨ p <:+: b ∨
      ∃ s t, p = s ++ t ∧ s ≠ [] ∧ t ≠ [] ∧ s <:+ a ∧ t <+: b := by
  obtain ⟨l, r, hlr⟩ := h
  have hlr' : l ++ (p ++ r) = a ++ b := by rw [← hlr]; simp [List.append_assoc]
  rcases List.append_eq_append_iff.mp hlr' with ⟨x, hax, hxb⟩ | ⟨y, hly, hyb⟩
  · -- a = l ++ x, p ++ r = x ++ b
    rcases List.append_eq_append_iff.mp hxb with ⟨u, hxu, hub⟩ | ⟨v, hpv, hvb⟩
    · -- x = p ++ u, r = u ++ b : p inside a
      left
      exact ⟨l, u, by rw [hax, hxu]; simp [List.append_assoc]⟩
    · -- p = x ++ v, b = v ++ r
      rcases eq_or_ne x [] with hx | hx
      · right; left
        exact ⟨[], r, by subst hx; simp at hpv; rw [hvb, hpv]; simp⟩
      · rcases eq_or_ne v [] with hv | hv
        · left
          refine ⟨l, [], ?_⟩
          subst hv
          rw [hax]; simp [hpv]
        · right; right
          exact ⟨x, v, hpv, hx, hv, ⟨l, hax.symm⟩, ⟨r, hvb.symm⟩⟩
  · -- l = a ++ y, b = y ++ (p ++ r) : p inside b
    right; left
    exact ⟨y, r, by rw [hyb]; simp [List.append_assoc]⟩

theorem noNewMatch_spec {k kw task : List Char} (h : noNewMatch k kw = true)
    (h2 : k <:+: task ++ (' ' :: kw)) : k <:+: task := by
  rw [noNewMatch, Bool.and_eq_true] at h
  obtain ⟨h1, hall⟩ := h
  rcases infix_append_cases h2 with hA | hB | ⟨s, t, hst, hs, ht, hsfx, hpfx⟩
  · exact hA
  · rw [Bool.not_eq_true'] at h1
    rw [← isSubstr_iff, h1] at hB
    exact absurd hB (by simp)
  · exfalso
    have htlen : t.length ≠ 0 := fun h0 => ht (List.eq_nil_of_length_eq_zero h0)
    have hslen : s.length ≠ 0 := fun h0 => hs (List.eq_nil_of_length_eq_zero h0)
    have hlen : s.length < k.length := by
      rw [hst, List.length_append]; omega
    have hval := List.all_eq_true.mp hall _ (List.mem_range.mpr hlen)
    have hs0 : (s.length == 0) = false := by simpa using hslen
    rw [hs0, Bool.false_or, Bool.not_eq_true'] at hval
    have hdrop : k.drop s.length = t := by rw [hst]; exact List.drop_left s t
    rw [hdrop] at hval
    rw [← @List.isPrefixOf_iff_prefix Char _ _ t (' ' :: kw), hval] at hpfx
    exact absurd hpfx (by simp)

/-! ### Keyword-table facts established by computation -/

theorem posKeywordsSafe : ∀ p ∈ COMPLEXITY_KEYWORDS, 0 < p.2 →
    ∀ q ∈ COMPLEXITY_KEYWORDS, q.2 < 0 → noNewMatch q.1 p.1 = true := by decide

theorem negKeywordsSafe : ∀ p ∈ COMPLEXITY_KEYWORDS, p.2 < 0 →
    ∀ q ∈ COMPLEXITY_KEYWORDS, 0 < q.2 → noNewMatch q.1 p.1 = true := by decide

theorem kwLowerFixed : ∀ p ∈ COMPLEXITY_KEYWORDS, pyLower p.1 = p.1 := by decide

theorem negBacktickSafe : ∀ p ∈ COMPLEXITY_KEYWORDS, p.2 < 0 →
    noNewMatch ("```".toList) p.1 = true := by decide

/-! ### Monotonicity of the structural scoring components under appends -/

theorem splitWsAux_len_pos (b acc : List Char) (h : acc.isEmpty = false) :
    1 ≤ (splitWsAux b acc).length := by
  induction b generalizing acc with
  | nil => simp [splitWsAux, h]
  | cons c cs ih =>
    by_cases hsp : isPySpace c = true
    · simp only [splitWsAux, hsp, if_true, h, if_false]
      simp
    · simp only [splitWsAux, hsp]
      rw [if_neg (by simp [hsp])]
      exact ih (c :: acc) (by simp)

theorem splitWsAux_append_le (a b acc : List Char) :
    (splitWsAux a acc).length ≤ (splitWsAux (a ++ b) acc).length := by
  induction a generalizing acc with
  | nil =>
    by_cases h : acc.isEmpty = true
    · simp [splitWsAux, h]
    · rw [Bool.not_eq_true] at h
      simp only [splitWsAux, h, if_false, List.nil_append]
      simpa using splitWsAux_len_pos b acc h
  | cons c cs ih =>
    by_cases hsp : isPySpace c = true
    · by_cases hacc : acc.isEmpty = true
      · simpa only [splitWsAux, hsp, if_true, hacc, List.cons_append] using ih []
      · rw [Bool.not_eq_true] at hacc
        simp only [List.cons_append, splitWsAux, hsp, if_true, hacc, if_false,
          List.length_cons]
        exact Nat.succ_le_succ (ih [])
    · simp only [List.cons_append, splitWsAux, hsp, if_false]
      rw [if_neg (by simp [hsp]), if_neg (by simp [hsp])]
      exact ih (c :: acc)

theorem wordCount_append_le (a b : List Char) : wordCount a ≤ wordCount (a ++ b) :=
  splitWsAux_append_le a b []

theorem wordAdj_append_le (a b : List Char) : wordAdj a ≤ wordAdj (a ++ b) := by
  have h := wordCount_append_le a b
  unfold wordAdj
  split_ifs <;> omega

theorem countChar_append (x : Char) (a b : List Char) :
    countChar x (a ++ b) = countChar x a + countChar x b := by
  induction a with
  | nil => simp [countChar]
  | cons c cs ih => simp [countChar, ih]; omega

theorem countSub2_append_le (x y : Char) :
    ∀ (n : Nat) (a b : List Char), a.length ≤ n →
      countSub2 x y a ≤ countSub2 x y (a ++ b)
  | 0, [], b, _ => by simp [countSub2]
  | 0, _ :: _, _, h => by simp at h
  | n + 1, [], b, _ => by simp [countSub2]
  | n + 1, [c], b, _ => by
    cases b with
    | nil => simp
    | cons d rest => simp [countSub2]
  | n + 1, c :: d :: rest, b, h => by
    simp only [List.cons_append]
    by_cases hcd : c = x ∧ d = y
    · rw [countSub2, countSub2, if_pos hcd, if_pos hcd]
      have hr : rest.length ≤ n := by simp [List.length_cons] at h; omega
      exact Nat.add_le_add_left (countSub2_append_le x y n rest b hr) 1
    · rw [countSub2, countSub2, if_neg hcd, if_neg hcd]
      have hr : (d :: rest).length ≤ n := by simp only [List.length_cons] at h ⊢; omega
      exact countSub2_append_le x y n (d :: rest) b hr

theorem bulletCount_append_le (a b : List Char) : bulletCount a ≤ bulletCount (a ++ b) := by
  unfold bulletCount
  have h1 := countSub2_append_le '-' ' ' a.length a b le_rfl
  have h2 := countSub2_append_le '*' ' ' a.length a b le_rfl
  have h3 := countChar_append '\n' a b
  omega

theorem bulletAdj_append_le (a b : List Char) : bulletAdj a ≤ bulletAdj (a ++ b) := by
  have h := bulletCount_append_le a b
  unfold bulletAdj
  split_ifs <;> omega

theorem codeAdj_append_le (a b : List Char) : codeAdj a ≤ codeAdj (a ++ b) := by
  unfold codeAdj
  by_cases h : isSubstr "```".toList a = true
  · rw [if_pos h, if_pos (substr_append_right b h)]
  · rw [if_neg h]
    split_ifs <;> omega

theorem codeAdj_append_neg {kw : List Char} {w : Int}
    (hmem : (kw, w) ∈ COMPLEXITY_KEYWORDS) (hw : w < 0) (task : List Char) :
    codeAdj (task ++ (' ' :: kw)) = codeAdj task := by
  unfold codeAdj
  by_cases h : isSubstr "```".toList task = true
  · rw [if_pos h, if_pos (substr_append_right _ h)]
  · rw [if_neg h, if_neg]
    intro habs
    apply h
    rw [isSubstr_iff]
    exact noNewMatch_spec (negBacktickSafe (kw, w) hmem hw) ((isSubstr_iff _ _).mp habs)

/-! ### The keyword sum under appends -/

theorem kwScore_eq_sum (lower : List Char) :
    kwScore lower =
      (COMPLEXITY_KEYWORDS.map fun p => if isSubstr p.1 lower then p.2 else 0).sum := by
  suffices h : ∀ (l : List (List Char × Int)) (i : Int),
      l.foldl (fun acc p => if isSubstr p.1 lower then acc + p.2 else acc) i =
        i + (l.map fun p => if isSubstr p.1 lower then p.2 else 0).sum by
    simpa [kwScore] using h COMPLEXITY_KEYWORDS 0
  intro l
  induction l with
  | nil => simp
  | cons p t ih =>
    intro i
    by_cases hp : isSubstr p.1 lower = true
    · simp only [List.foldl_cons, List.map_cons, List.sum_cons, hp, if_true, ih]
      ring
    · rw [Bool.not_eq_true] at hp
      simp only [List.foldl_cons, List.map_cons, List.sum_cons, hp, ih]
      simp

theorem kwScore_append_pos {kw : List Char} {w : Int}
    (hmem : (kw, w) ∈ COMPLEXITY_KEYWORDS) (hw : 0 < w) (lower : List Char) :
    kwScore lower ≤ kwScore (lower ++ (' ' :: kw)) := by
  rw [kwScore_eq_sum, kwScore_eq_sum]
  apply List.sum_le_sum
  intro q hq
  by_cases h1 : isSubstr q.1 lower = true
  · rw [if_pos h1, if_pos (substr_append_right _ h1)]
  · rw [if_neg h1]
    by_cases h2 : isSubstr q.1 (lower ++ (' ' :: kw)) = true
    · rw [if_pos h2]
      by_cases hq2 : q.2 < 0
      · exfalso
        apply h1
        rw [isSubstr_iff]
        exact noNewMatch_spec (posKeywordsSafe (kw, w) hmem hw q hq hq2)
          ((isSubstr_iff _ _).mp h2)
      · omega
    · rw [if_neg h2]

theorem kwScore_append_neg {kw : List Char} {w : Int}
    (hmem : (kw, w) ∈ COMPLEXITY_KEYWORDS) (hw : w < 0) (lower : List Char) :
    kwScore (lower ++ (' ' :: kw)) ≤ kwScore lower := by
  rw [kwScore_eq_sum, kwScore_eq_sum]
  apply List.sum_le_sum
  intro q hq
  by_cases h1 : isSubstr q.1 lower = true
  · rw [if_pos h1, if_pos (substr_append_right _ h1)]
  · rw [if_neg h1]
    by_cases h2 : isSubstr q.1 (lower ++ (' ' :: kw)) = true
    · rw [if_pos h2]
      by_cases hq2 : 0 < q.2
      · exfalso
        apply h1
        rw [isSubstr_iff]
        exact noNewMatch_spec (negKeywordsSafe (kw, w) hmem hw q hq hq2)
          ((isSubstr_iff _ _).mp h2)
      · omega
    · rw [if_neg h2]

theorem pyLower_append_keyword {kw : List Char} {w : Int}
    (hmem : (kw, w) ∈ COMPLEXITY_KEYWORDS) (task : List Char) :
    pyLower (task ++ (' ' :: kw)) = pyLower task ++ (' ' :: kw) := by
  have hkw : pyLower kw = kw := kwLowerFixed (kw, w) hmem
  simp only [pyLower, List.map_append, List.map_cons]
  rw [show pyLowerChar ' ' = ' ' from rfl]
  rw [show List.map pyLowerChar kw = pyLower kw from rfl, hkw]

theorem scoreTask_no_learning {reg : List ModelSpec} {outcomes : List OutcomeRecord}
    (h : freeLowSuccess reg outcomes = false) (task : List Char) (taskType : String) :
    scoreTask reg outcomes task taskType = max 5 (min 95 (scoreCore task taskType)) := by
  simp [scoreTask, h]

/-! ### Claim C1 -/

/-- C1: for every task string (including the empty string, arbitrarily long
strings, and strings matching any number of positive or negative keywords)
and every task type, `_score_task` returns an integer score in the closed
interval [5, 95]. -/
theorem scoreTask_clamped (reg : List ModelSpec) (outcomes : List OutcomeRecord)
    (task : List Char) (taskType : String) :
    5 ≤ scoreTask reg outcomes task taskType ∧ scoreTask reg outcomes task taskType ≤ 95 := by
  simp only [scoreTask]
  exact ⟨le_max_left _ _, max_le (by norm_num) (min_le_left _ _)⟩

/-! ### Claim C2 -/

/-- C2 counterexample: the claim asserts `signature("fix a.py") ==
signature("fix b.py")` is false, but the regex
`\b\w+\.(py|…)\b → FILE.\1` replaces each whole filename token, so both
normalize to `"fix FILE.py"` and the signatures are equal. -/
theorem computeSignature_filename_collision :
    computeSignature "fix a.py".toList = computeSignature "fix b.py".toList := by
  decide

/-- C2 (amended): the signature function is deterministic; two tasks
differing only in digit runs collide
(`signature("Fix bug #123 in file.py") == signature("Fix bug #456 in file.py")`);
and `signature("fix a.py") == signature("fix b.py")` is true as well, because
a whole `word.ext` token with an allow-listed extension is replaced by the
`FILE.ext` placeholder. -/
theorem computeSignature_normalization :
    (∀ task : List Char, computeSignature task = computeSignature task) ∧
    computeSignature "Fix bug #123 in file.py".toList =
      computeSignature "Fix bug #456 in file.py".toList ∧
    computeSignature "fix a.py".toList = computeSignature "fix b.py".toList :=
  ⟨fun _ => rfl, by decide, by decide⟩

/-! ### Claim C4 -/

/-- C4 counterexample: appending the positive keyword `"update"` (weight +5)
to `"design the system look "` drops the detected type from `architect`
(base 80) to `research` (base 50, because the append creates the research
trigger `"look up"`), so the computed score decreases from 75 to 50; and
appending `" comment"` (weight -8) to a 50-word task crosses the 50-word
threshold (+10), so the computed score increases from 35 to 37. -/
theorem scoreTask_keyword_monotone_cx :
    (("update".toList, (5 : Int)) ∈ COMPLEXITY_KEYWORDS ∧
      scoreTask [] [] ("design the system look ".toList ++ "update".toList)
          (detectTaskType ("design the system look ".toList ++ "update".toList)) <
        scoreTask [] [] "design the system look ".toList
          (detectTaskType "design the system look ".toList)) ∧
    (("comment".toList, (-8 : Int)) ∈ COMPLEXITY_KEYWORDS ∧
      scoreTask [] [] taskZ50 (detectTaskType taskZ50) <
        scoreTask [] [] (taskZ50 ++ " comment".toList)
          (detectTaskType (taskZ50 ++ " comment".toList))) := by
  with_unfolding_all decide

/-- C4 (amended): with the task type held fixed and the learning adjustment
inactive (no free-tier model with success rate below 0.5), appending
`' ' :: kw` for a recognized positive-weight keyword `kw` never decreases
the computed score; for a recognized negative-weight keyword it never
increases the score provided the append leaves the word-count and
bullet-count adjustments unchanged. -/
theorem scoreTask_keyword_monotone (reg : List ModelSpec) (outcomes : List OutcomeRecord)
    (task kw : List Char) (w : Int) (taskType : String)
    (hmem : (kw, w) ∈ COMPLEXITY_KEYWORDS)
    (hlearn : freeLowSuccess reg outcomes = false) :
    (0 < w → scoreTask reg outcomes task taskType ≤
      scoreTask reg outcomes (task ++ (' ' :: kw)) taskType) ∧
    (w < 0 → wordAdj (task ++ (' ' :: kw)) = wordAdj task →
      bulletAdj (task ++ (' ' :: kw)) = bulletAdj task →
      scoreTask reg outcomes (task ++ (' ' :: kw)) taskType ≤
        scoreTask reg outcomes task taskType) := by
  simp only [scoreTask_no_learning hlearn]
  constructor
  · intro hw
    apply max_le_max le_rfl
    apply min_le_min le_rfl
    unfold scoreCore
    have h1 : kwScore (pyLower task) ≤ kwScore (pyLower (task ++ (' ' :: kw))) := by
      rw [pyLower_append_keyword hmem]
      exact kwScore_append_pos hmem hw (pyLower task)
    have h2 := wordAdj_append_le task (' ' :: kw)
    have h3 := codeAdj_append_le task (' ' :: kw)
    have h4 := bulletAdj_append_le task (' ' :: kw)
    omega
  · intro hw hword hbullet
    apply max_le_max le_rfl
    apply min_le_min le_rfl
    unfold scoreCore
    have h1 : kwScore (pyLower (task ++ (' ' :: kw))) ≤ kwScore (pyLower task) := by
      rw [pyLower_append_keyword hmem]
      exact kwScore_append_neg hmem hw (pyLower task)
    have h3 := codeAdj_append_neg hmem hw task
    omega

theorem scoreTask_keyword_monotone_witness :
    (("complex".toList, (15 : Int)) ∈ COMPLEXITY_KEYWORDS ∧ freeLowSuccess [] [] = false) ∧
    scoreTask [] [] "hello there".toList "general" ≤
      scoreTask [] [] ("hello there".toList ++ (' ' :: "complex".toList)) "general" ∧
    scoreTask [] [] ("hello there".toList ++ (' ' :: "typo".toList)) "general" ≤
      scoreTask [] [] "hello there".toList "general" :=
  ⟨⟨by decide, by decide⟩,
   (scoreTask_keyword_monotone [] [] "hello there".toList "complex".toList 15 "general"
      (by decide) (by decide)).1 (by decide),
   (scoreTask_keyword_monotone [] [] "hello there".toList "typo".toList (-15) "general"
      (by decide) (by decide)).2 (by decide) (by decide) (by decide)⟩

/-! ### Claim C5 -/

/-- C5: any task containing a research-trigger keyword (as a substring of its
lower-cased text) is detected as task type `research`, and the score-to-tier
resolution then yields tier `research` for every score. -/
theorem research_keyword_routes_research (task : List Char) (s : Int)
    (h : ∃ kw ∈ RESEARCH_KEYWORDS, kw <:+: pyLower task) :
    detectTaskType task = "research" ∧
      scoreToTier s (detectTaskType task == "research") = Tier.research := by
  have hany : (RESEARCH_KEYWORDS.any fun kw => isSubstr kw (pyLower task)) = true := by
    obtain ⟨kw, hkw, hinf⟩ := h
    exact List.any_eq_true.mpr ⟨kw, hkw, (isSubstr_iff _ _).mpr hinf⟩
  have hdet : detectTaskType task = "research" := by
    simp [detectTaskType, hany]
  refine ⟨hdet, ?_⟩
  rw [hdet]
  rfl

theorem research_keyword_routes_research_witness :
    detectTaskType "compare rust and go".toList = "research" ∧
      scoreToTier 99 (detectTaskType "compare rust and go".toList == "research") =
        Tier.research :=
  research_keyword_routes_research "compare rust and go".toList 99
    ⟨"compare".toList, by decide, by decide⟩

/-! ### Claim C7 -/

/-- C7 counterexample: with a free-tier model whose recorded success rate is
0 (< 0.5) and a task whose running score is 25 — inside the free-tier band
[0, 25] — the score is NOT forced to 31: the code only bumps when the
running score is strictly below 25. -/
theorem learning_bump_boundary_cx :
    freeLowSuccess [freeModelW] [failRecW] = true ∧
    detectTaskType fixtureTaskC7 = "general" ∧
    scoreCore fixtureTaskC7 "general" = 25 ∧
    ((alookup "free" TIER_THRESHOLDS).getD (0, 25)).1 ≤ 25 ∧
    (25 : Int) ≤ ((alookup "free" TIER_THRESHOLDS).getD (0, 25)).2 ∧
    scoreTask [freeModelW] [failRecW] fixtureTaskC7 "general" = 25 := by
  with_unfolding_all decide

/-- C7 (amended): during scoring, if some free-tier model has a recorded
success rate below 0.5 and the running score is strictly below the
free-tier band's upper bound (25), the final score is forced to the
cheap-tier lower bound plus 5 (= 31). -/
theorem learning_bump_spec (reg : List ModelSpec) (outcomes : List OutcomeRecord)
    (task : List Char) (taskType : String)
    (hfree : freeLowSuccess reg outcomes = true)
    (hscore : scoreCore task taskType < ((alookup "free" TIER_THRESHOLDS).getD (0, 25)).2) :
    scoreTask reg outcomes task taskType =
      ((alookup "cheap" TIER_THRESHOLDS).getD (26, 45)).1 + 5 := by
  simp only [scoreTask, hfree, Bool.true_and, decide_eq_true hscore]
  rfl

theorem learning_bump_spec_witness :
    freeLowSuccess [freeModelW] [failRecW] = true ∧
    scoreCore [] "trivial" < ((alookup "free" TIER_THRESHOLDS).getD (0, 25)).2 ∧
    scoreTask [freeModelW] [failRecW] [] "trivial" =
      ((alookup "cheap" TIER_THRESHOLDS).getD (26, 45)).1 + 5 :=
  ⟨by with_unfolding_all decide, by decide,
   learning_bump_spec [freeModelW] [failRecW] [] "trivial"
     (by with_unfolding_all decide) (by decide)⟩

/-! ### Claim C8 -/

theorem length_filter_partition {α : Type} (l : List α) (p q : α → Bool)
    (h : ∀ a ∈ l, (p a = true ∧ q a = false) ∨ (p a = false ∧ q a = true)) :
    (l.filter p).length + (l.filter q).length = l.length := by
  induction l with
  | nil => simp
  | cons a t ih =>
    have ht := fun b hb => h b (List.mem_cons_of_mem a hb)
    have iht := ih ht
    rcases h a (List.mem_cons_self a t) with ⟨hp, hq⟩ | ⟨hp, hq⟩ <;>
      simp [List.filter_cons, hp, hq, List.length_cons] <;>
      omega

/-- C8: `get_success_rate` returns exactly 1 when no outcome has been
recorded for the model id, and with N recorded successes and M recorded
failures for that id it returns exactly N/(N+M), a value in [0, 1]
(outcomes written by `record_outcome` are always "success" or "fail"). -/
theorem getSuccessRate_spec (outcomes : List OutcomeRecord) (modelId : String)
    (hwf : ∀ o ∈ outcomes, o.outcome = "success" ∨ o.outcome = "fail") :
    ((outcomes.filter fun o => decide (o.model_id = modelId)) = [] →
      getSuccessRate outcomes modelId = 1) ∧
    ((outcomes.filter fun o => decide (o.model_id = modelId)) ≠ [] →
      getSuccessRate outcomes modelId =
        (((outcomes.filter fun o => decide (o.model_id = modelId)).filter
            fun o => decide (o.outcome = "success")).length : ℚ) /
          ((((outcomes.filter fun o => decide (o.model_id = modelId)).filter
              fun o => decide (o.outcome = "success")).length : ℚ) +
            (((outcomes.filter fun o => decide (o.model_id = modelId)).filter
              fun o => decide (o.outcome = "fail")).length : ℚ)) ∧
      0 ≤ getSuccessRate outcomes modelId ∧ getSuccessRate outcomes modelId ≤ 1) := by
  have hunfold : getSuccessRate outcomes modelId =
      if (outcomes.filter fun o => decide (o.model_id = modelId)).isEmpty then 1
      else (((outcomes.filter fun o => decide (o.model_id = modelId)).filter
          fun o => decide (o.outcome = "success")).length : ℚ) /
        ((outcomes.filter fun o => decide (o.model_id = modelId)).length : ℚ) := rfl
  constructor
  · intro hnil
    rw [hunfold, hnil]
    rfl
  · intro hne
    have hE : (outcomes.filter fun o => decide (o.model_id = modelId)).isEmpty = false := by
      cases hcase : (outcomes.filter fun o => decide (o.model_id = modelId)).isEmpty
      · rfl
      · exact absurd (List.isEmpty_iff.mp hcase) hne
    have hrate : getSuccessRate outcomes modelId =
        (((outcomes.filter fun o => decide (o.model_id = modelId)).filter
            fun o => decide (o.outcome = "success")).length : ℚ) /
          ((outcomes.filter fun o => decide (o.model_id = modelId)).length : ℚ) := by
      rw [hunfold, hE]
      simp
    have hpart : ((outcomes.filter fun o => decide (o.model_id = modelId)).filter
          fun o => decide (o.outcome = "success")).length +
        ((outcomes.filter fun o => decide (o.model_id = modelId)).filter
          fun o => decide (o.outcome = "fail")).length =
        (outcomes.filter fun o => decide (o.model_id = modelId)).length := by
      apply length_filter_partition
      intro a ha
      rcases hwf a (List.mem_of_mem_filter ha) with h | h
      · left
        exact ⟨by simp [h], by simp [h]⟩
      · right
        exact ⟨by simp [h], by simp [h]⟩
    have hlenpos : 0 < (outcomes.filter fun o => decide (o.model_id = modelId)).length :=
      List.length_pos.mpr hne
    refine ⟨?_, ?_, ?_⟩
    · rw [hrate]
      congr 1
      rw [← hpart]
      push_cast
      ring
    · rw [hrate]
      positivity
    · rw [hrate]
      rw [div_le_one (by exact_mod_cast hlenpos)]
      exact_mod_cast List.length_filter_le _ _

theorem getSuccessRate_spec_witness :
    getSuccessRate outcomesW8 "nobody" = 1 ∧ getSuccessRate outcomesW8 "m" = 2 / 3 :=
  ⟨(getSuccessRate_spec outcomesW8 "nobody" (by decide)).1 (by decide),
   by
    have h := ((getSuccessRate_spec outcomesW8 "m" (by decide)).2 (by decide)).1
    rw [h]
    with_unfolding_all decide⟩

/-! ### Claim C9 -/

theorem getLast?_of_suffix {α : Type} {s l : List α} (h : s <:+ l) (hne : s ≠ []) :
    s.getLast? = l.getLast? := by
  obtain ⟨t, rfl⟩ := h
  rw [List.getLast?_append]
  cases hs : s.getLast? with
  | none => exact absurd (List.getLast?_eq_none_iff.mp hs) hne
  | some y => rfl

/-- C9: `record_outcome` appends exactly one record (newest last); whenever
the resulting sequence exceeds 1000 entries it is truncated to the most
recent 500 (oldest-first eviction); hence the stored sequence always holds
at most 1000 records and is a suffix of the appended sequence (original
order retained). -/
theorem recordOutcome_spec (outcomes : List OutcomeRecord) (r : OutcomeRecord) :
    (recordOutcome outcomes r).length ≤ 1000 ∧
    recordOutcome outcomes r <:+ outcomes ++ [r] ∧
    (recordOutcome outcomes r).getLast? = some r ∧
    ((outcomes ++ [r]).length ≤ 1000 → recordOutcome outcomes r = outcomes ++ [r]) ∧
    (1000 < (outcomes ++ [r]).length →
      recordOutcome outcomes r = (outcomes ++ [r]).drop ((outcomes ++ [r]).length - 500) ∧
      (recordOutcome outcomes r).length = 500) := by
  by_cases h : (outcomes ++ [r]).length > 1000
  · have hdef : recordOutcome outcomes r =
        (outcomes ++ [r]).drop ((outcomes ++ [r]).length - 500) := by
      simp only [recordOutcome]
      rw [if_pos h]
    have hlen : (recordOutcome outcomes r).length = 500 := by
      rw [hdef, List.length_drop]
      omega
    have hsfx : recordOutcome outcomes r <:+ outcomes ++ [r] :=
      hdef ▸ List.drop_suffix _ _
    have hne : recordOutcome outcomes r ≠ [] := by
      intro h0
      rw [h0] at hlen
      simp at hlen
    refine ⟨by omega, hsfx, ?_, fun hle => absurd h (by omega), fun _ => ⟨hdef, hlen⟩⟩
    rw [getLast?_of_suffix hsfx hne, List.getLast?_concat]
  · have hdef : recordOutcome outcomes r = outcomes ++ [r] := by
      simp only [recordOutcome]
      rw [if_neg h]
    rw [hdef]
    exact ⟨by omega, List.suffix_refl _, List.getLast?_concat _, fun _ => rfl,
      fun hgt => absurd hgt h⟩

theorem recordOutcome_spec_witness :
    recordOutcome [] recW9 = [] ++ [recW9] ∧ (recordOutcome bigW9 recW9).length = 500 :=
  ⟨(recordOutcome_spec [] recW9).2.2.2.1 (by simp),
   ((recordOutcome_spec bigW9 recW9).2.2.2.2 (by simp [bigW9])).2⟩

/-! ### Claim C3 -/

/-- C3: `route` returns the distinguished `RouterError` exactly when the
initially mapped tier and all four escalation tiers
{cheap, standard, premium, free} (the already-tried tier being skipped)
yield no model from the selector. -/
theorem route_error_iff (reg : List ModelSpec) (outcomes : List OutcomeRecord)
    (cfg : RouterConfig) (task : List Char) (cap : Option Capability) :
    route reg outcomes cfg task cap = .error "No suitable model found for any tier" ↔
      (selectModel reg outcomes cfg
          (scoreToTier (scoreTask reg outcomes task (detectTaskType task))
            (detectTaskType task == "research")) cap = none ∧
        ∀ t ∈ ESCALATION_ORDER, selectModel reg outcomes cfg t cap = none) := by
  simp only [route]
  set tier0 := scoreToTier (scoreTask reg outcomes task (detectTaskType task))
    (detectTaskType task == "research") with htier0
  cases hsel : selectModel reg outcomes cfg tier0 cap with
  | some m =>
    simp only [hsel]
    constructor
    · intro habs
      exact absurd habs (by simp)
    · rintro ⟨habs, -⟩
      exact absurd habs (by simp)
  | none =>
    cases hfind : (ESCALATION_ORDER.filter fun t => decide (t ≠ tier0)).findSome?
        (fun t => (selectModel reg outcomes cfg t cap).map fun m => (t, m)) with
    | some p =>
      obtain ⟨t, m⟩ := p
      obtain ⟨a, ha, hmap⟩ := List.exists_of_findSome?_eq_some hfind
      rw [Option.map_eq_some'] at hmap
      obtain ⟨m', hm', -⟩ := hmap
      have hat : a ∈ ESCALATION_ORDER := (List.mem_filter.mp ha).1
      simp only [hsel, hfind]
      constructor
      · intro habs
        exact absurd habs (by simp)
      · rintro ⟨-, hall⟩
        rw [hall a hat] at hm'
        exact absurd hm' (by simp)
    | none =>
      simp only [hsel, hfind]
      constructor
      · intro _
        refine ⟨trivial, ?_⟩
        intro t ht
        by_cases hteq : t = tier0
        · rw [hteq]
          exact hsel
        · have hmemf : t ∈ ESCALATION_ORDER.filter fun t => decide (t ≠ tier0) :=
            List.mem_filter.mpr ⟨ht, by simp [hteq]⟩
          have hnone := List.findSome?_eq_none_iff.mp hfind t hmemf
          rw [Option.map_eq_none'] at hnone
          exact hnone
      · intro _
        trivial

/-! ### Claim C6 -/

theorem fbStep_inv {primaryId : String} {cap : Option Capability} {cfg : RouterConfig}
    {st : List ModelSpec × List String} (c : ModelSpec)
    (h : FbInv primaryId cap st) : FbInv primaryId cap (fbStep cfg cap st c) := by
  obtain ⟨h1, h2, h3, h4, h5⟩ := h
  unfold fbStep
  by_cases hseen : c.id ∈ st.2
  · rw [if_pos (by simpa using hseen)]
    exact ⟨h1, h2, h3, h4, h5⟩
  · rw [if_neg (by simpa using hseen)]
    by_cases hok : fallbackOk cfg cap c = true
    · rw [if_pos hok]
      refine ⟨List.mem_append_left _ h1, ?_, ?_, ?_, ?_⟩
      · intro f hf
        rcases List.mem_append.mp hf with hf | hf
        · exact h2 f hf
        · rw [List.mem_singleton] at hf
          subst hf
          exact fun habs => hseen (habs ▸ h1)
      · intro f hf c0 hc0
        rcases List.mem_append.mp hf with hf | hf
        · exact h3 f hf c0 hc0
        · rw [List.mem_singleton] at hf
          subst hf
          unfold fallbackOk at hok
          rw [Bool.and_eq_true] at hok
          have hcap := hok.1
          rw [hc0] at hcap
          simpa using hcap
      · rw [List.map_append, List.nodup_append]
        refine ⟨h4, by simp, ?_⟩
        intro x hx hy
        simp only [List.map_cons, List.map_nil, List.mem_singleton] at hy
        subst hy
        obtain ⟨f, hf, hfid⟩ := List.mem_map.mp hx
        exact hseen (hfid ▸ h5 f hf)
      · intro f hf
        rcases List.mem_append.mp hf with hf | hf
        · exact List.mem_append_left _ (h5 f hf)
        · rw [List.mem_singleton] at hf
          subst hf
          exact List.mem_append_right _ (by simp)
    · rw [if_neg hok]
      exact ⟨h1, h2, h3, h4, h5⟩

theorem addCandidates_inv {primaryId : String} {cap : Option Capability}
    {cfg : RouterConfig} (cands : List ModelSpec)
    (st : List ModelSpec × List String) (h : FbInv primaryId cap st) :
    FbInv primaryId cap (addCandidates cfg cap st cands) := by
  induction cands generalizing st with
  | nil => exact h
  | cons c cs ih =>
    rw [addCandidates, List.foldl_cons]
    exact ih _ (fbStep_inv c h)

theorem addCandidates_fold_inv {primaryId : String} {cap : Option Capability}
    {cfg : RouterConfig} {reg : List ModelSpec} (tiers : List Tier)
    (st : List ModelSpec × List String) (h : FbInv primaryId cap st) :
    FbInv primaryId cap
      (tiers.foldl (fun st t => addCandidates cfg cap st (listByTier reg t)) st) := by
  induction tiers generalizing st with
  | nil => exact h
  | cons t ts ih =>
    rw [List.foldl_cons]
    exact ih _ (addCandidates_inv _ _ h)

theorem buildFallbacks_props (reg : List ModelSpec) (cfg : RouterConfig) (tier : Tier)
    (primary : ModelSpec) (cap : Option Capability) :
    (∀ f ∈ buildFallbacks reg cfg tier primary cap,
      f.id ≠ primary.id ∧ ∀ c, cap = some c → c ∈ f.capabilities) ∧
    (buildFallbacks reg cfg tier primary cap).length ≤ 4 ∧
    ((buildFallbacks reg cfg tier primary cap).map fun f => f.id).Nodup := by
  have hinit : FbInv primary.id cap ([], [primary.id]) :=
    ⟨by simp, by simp, by simp, by simp, by simp⟩
  have hstate : FbInv primary.id cap (buildFallbacksState reg cfg tier primary cap) := by
    unfold buildFallbacksState
    cases TIER_ORDER.findIdx? (fun t => decide (t = tier)) with
    | none => exact addCandidates_inv _ _ hinit
    | some idx => exact addCandidates_fold_inv _ _ (addCandidates_inv _ _ hinit)
  obtain ⟨-, h2, h3, h4, -⟩ := hstate
  unfold buildFallbacks
  refine ⟨?_, ?_, ?_⟩
  · intro f hf
    have hf' := List.mem_of_mem_take hf
    exact ⟨h2 f hf', h3 f hf'⟩
  · exact List.length_take_le _ _
  · rw [List.map_take]
    exact h4.sublist (List.take_sublist _ _)

theorem route_ok_fallbacks {reg : List ModelSpec} {outcomes : List OutcomeRecord}
    {cfg : RouterConfig} {task : List Char} {cap : Option Capability} {r : RouteResult}
    (h : route reg outcomes cfg task cap = .ok r) :
    ∃ tier, r.fallbacks = buildFallbacks reg cfg tier r.model cap := by
  simp only [route] at h
  cases hsel : selectModel reg outcomes cfg
      (scoreToTier (scoreTask reg outcomes task (detectTaskType task))
        (detectTaskType task == "research")) cap with
  | some m =>
    simp only [hsel] at h
    rw [Except.ok.injEq] at h
    exact ⟨scoreToTier (scoreTask reg outcomes task (detectTaskType task))
      (detectTaskType task == "research"), by rw [← h]⟩
  | none =>
    cases hfind : (ESCALATION_ORDER.filter fun t =>
        decide (t ≠ scoreToTier (scoreTask reg outcomes task (detectTaskType task))
          (detectTaskType task == "research"))).findSome?
        (fun t => (selectModel reg outcomes cfg t cap).map fun m => (t, m)) with
    | some p =>
      obtain ⟨t, m⟩ := p
      simp only [hsel, hfind] at h
      rw [Except.ok.injEq] at h
      exact ⟨t, by rw [← h]⟩
    | none =>
      simp only [hsel, hfind] at h
      exact absurd h (by simp)

/-- C6: for every successful `route(task, required_capability)` call, the
returned fallback list never contains the primary model's id, has length at
most 4, contains no duplicate model ids, and every entry possesses the
required capability when one was given. -/
theorem route_fallback_props (reg : List ModelSpec) (outcomes : List OutcomeRecord)
    (cfg : RouterConfig) (task : List Char) (cap : Option Capability) (r : RouteResult)
    (h : route reg outcomes cfg task cap = .ok r) :
    (∀ f ∈ r.fallbacks, f.id ≠ r.model.id) ∧
    r.fallbacks.length ≤ 4 ∧
    ((r.fallbacks.map fun f => f.id).Nodup) ∧
    (∀ c, cap = some c → ∀ f ∈ r.fallbacks, c ∈ f.capabilities) := by
  obtain ⟨tier, hfb⟩ := route_ok_fallbacks h
  have hp := buildFallbacks_props reg cfg tier r.model cap
  rw [hfb]
  exact ⟨fun f hf => (hp.1 f hf).1, hp.2.1, hp.2.2,
    fun c hc f hf => (hp.1 f hf).2 c hc⟩

theorem route_fallback_props_witness :
    route regW6 [] {} "typo".toList none =
      .ok (okResult (route regW6 [] {} "typo".toList none) defaultRR) ∧
    (∀ f ∈ (okResult (route regW6 [] {} "typo".toList none) defaultRR).fallbacks,
      f.id ≠ (okResult (route regW6 [] {} "typo".toList none) defaultRR).model.id) ∧
    (okResult (route regW6 [] {} "typo".toList none) defaultRR).fallbacks.length ≤ 4 ∧
    ((okResult (route regW6 [] {} "typo".toList none) defaultRR).fallbacks.map
        fun f => f.id).Nodup ∧
    (∀ c, (none : Option Capability) = some c →
      ∀ f ∈ (okResult (route regW6 [] {} "typo".toList none) defaultRR).fallbacks,
        c ∈ f.capabilities) := by
  have hok : route regW6 [] {} "typo".toList none =
      .ok (okResult (route regW6 [] {} "typo".toList none) defaultRR) := by
    with_unfolding_all rfl
  have hp := route_fallback_props regW6 [] {} "typo".toList none _ hok
  exact ⟨hok, hp.1, hp.2.1, hp.2.2.1, hp.2.2.2⟩

/-! ### Claim C10 -/

theorem alookup_map_value {β γ : Type} (g : β → γ) (k : String) (l : List (String × β)) :
    alookup k (l.map fun p => (p.1, g p.2)) = (alookup k l).map g := by
  induction l with
  | nil => rfl
  | cons p ps ih =>
    by_cases h : p.1 = k
    · simp [alookup, h]
    · simp [alookup, h, ih]

theorem alookup_none_of_any_eq_false {β : Type} {k : String} {l : List (String × β)}
    (h : (l.any fun p => decide (p.1 = k)) = false) : alookup k l = none := by
  induction l with
  | nil => rfl
  | cons p ps ih =>
    rw [List.any_cons, Bool.or_eq_false_iff] at h
    rw [alookup, if_neg (by simpa using h.1)]
    exact ih h.2

theorem alookup_isSome_of_any {β : Type} {k : String} {l : List (String × β)}
    (h : (l.any fun p => decide (p.1 = k)) = true) : ∃ v, alookup k l = some v := by
  induction l with
  | nil => simp at h
  | cons p ps ih =>
    by_cases hp : p.1 = k
    · exact ⟨p.2, by simp [alookup, hp]⟩
    · rw [List.any_cons, Bool.or_eq_true] at h
      rcases h with h | h
      · exact absurd (of_decide_eq_true h) hp
      · obtain ⟨v, hv⟩ := ih h
        exact ⟨v, by simp [alookup, hp, hv]⟩

theorem alookup_append {β : Type} (k : String) (l1 l2 : List (String × β)) :
    alookup k (l1 ++ l2) = (alookup k l1).or (alookup k l2) := by
  induction l1 with
  | nil => rfl
  | cons p ps ih =>
    by_cases h : p.1 = k
    · simp [alookup, h]
    · simp [alookup, h, ih]

theorem alookup_statsUpd_map_self (o : OutcomeRecord) (l : List (String × MStat)) :
    alookup o.model_id
        (l.map fun p => if p.1 = o.model_id then (p.1, statsUpd p.2 o) else p) =
      (alookup o.model_id l).map fun s => statsUpd s o := by
  induction l with
  | nil => rfl
  | cons p ps ih =>
    by_cases h : p.1 = o.model_id
    · simp [alookup, h]
    · simp [alookup, h, ih]

theorem alookup_statsUpd_map_ne (o : OutcomeRecord) {k : String} (hne : k ≠ o.model_id)
    (l : List (String × MStat)) :
    alookup k (l.map fun p => if p.1 = o.model_id then (p.1, statsUpd p.2 o) else p) =
      alookup k l := by
  induction l with
  | nil => rfl
  | cons p ps ih =>
    by_cases h : p.1 = o.model_id
    · simp [alookup, h, Ne.symm hne, ih]
    · simp [alookup, h, ih]

theorem alookup_statsIns_self (acc : List (String × MStat)) (o : OutcomeRecord) :
    alookup o.model_id (statsIns acc o) =
      some (statsUpd ((alookup o.model_id acc).getD ⟨0, 0, []⟩) o) := by
  unfold statsIns
  by_cases hany : (acc.any fun p => decide (p.1 = o.model_id)) = true
  · rw [if_pos hany, alookup_statsUpd_map_self]
    obtain ⟨v, hv⟩ := alookup_isSome_of_any hany
    rw [hv]
    rfl
  · rw [Bool.not_eq_true] at hany
    rw [if_neg (by simp [hany]), alookup_statsUpd_map_self, alookup_append,
      alookup_none_of_any_eq_false hany]
    simp [alookup]

theorem alookup_statsIns_ne (acc : List (String × MStat)) (o : OutcomeRecord)
    {k : String} (hne : k ≠ o.model_id) :
    alookup k (statsIns acc o) = alookup k acc := by
  unfold statsIns
  by_cases hany : (acc.any fun p => decide (p.1 = o.model_id)) = true
  · rw [if_pos hany, alookup_statsUpd_map_ne _ hne]
  · rw [Bool.not_eq_true] at hany
    rw [if_neg (by simp [hany]), alookup_statsUpd_map_ne _ hne, alookup_append]
    have h2 : alookup k [(o.model_id, (⟨0, 0, []⟩ : MStat))] = none := by
      simp [alookup, Ne.symm hne]
    rw [h2, Option.or_none]

theorem statsUpd_mk (rel : List OutcomeRecord) (o : OutcomeRecord) :
    statsUpd ⟨rel.length,
        (rel.filter fun x => decide (x.outcome = "success")).length,
        (rel.filter fun x => decide (0 < x.latency_ms)).map fun x => x.latency_ms⟩ o =
      ⟨(rel ++ [o]).length,
        ((rel ++ [o]).filter fun x => decide (x.outcome = "success")).length,
        ((rel ++ [o]).filter fun x => decide (0 < x.latency_ms)).map fun x => x.latency_ms⟩ := by
  unfold statsUpd
  by_cases ho : o.outcome = "success" <;> by_cases hl : 0 < o.latency_ms <;>
    simp [List.filter_append, List.filter_cons, ho, hl]

theorem alookup_statsRaw (outcomes : List OutcomeRecord) (k : String) :
    alookup k (statsRaw outcomes) =
      if (outcomes.filter fun o => decide (o.model_id = k)) = [] then none
      else some
        ⟨(outcomes.filter fun o => decide (o.model_id = k)).length,
         ((outcomes.filter fun o => decide (o.model_id = k)).filter
            fun o => decide (o.outcome = "success")).length,
         ((outcomes.filter fun o => decide (o.model_id = k)).filter
            fun o => decide (0 < o.latency_ms)).map fun o => o.latency_ms⟩ := by
  induction outcomes using List.reverseRecOn with
  | nil => simp [statsRaw, alookup]
  | append_singleton l o ih =>
    have hfold : statsRaw (l ++ [o]) = statsIns (statsRaw l) o := by
      simp [statsRaw, List.foldl_append]
    rw [hfold]
    by_cases hk : o.model_id = k
    · subst hk
      rw [alookup_statsIns_self, ih]
      have hfo : ((l ++ [o]).filter fun o' => decide (o'.model_id = o.model_id)) =
          (l.filter fun o' => decide (o'.model_id = o.model_id)) ++ [o] := by
        simp [List.filter_append]
      rw [hfo]
      rw [if_neg (show ¬((l.filter fun o' => decide (o'.model_id = o.model_id)) ++ [o] = [])
        by simp)]
      have hgetD : (if (l.filter fun o' => decide (o'.model_id = o.model_id)) = [] then
            (none : Option MStat)
          else some
            ⟨(l.filter fun o' => decide (o'.model_id = o.model_id)).length,
             ((l.filter fun o' => decide (o'.model_id = o.model_id)).filter
                fun o' => decide (o'.outcome = "success")).length,
             ((l.filter fun o' => decide (o'.model_id = o.model_id)).filter
                fun o' => decide (0 < o'.latency_ms)).map
                fun o' => o'.latency_ms⟩).getD ⟨0, 0, []⟩ =
          ⟨(l.filter fun o' => decide (o'.model_id = o.model_id)).length,
           ((l.filter fun o' => decide (o'.model_id = o.model_id)).filter
              fun o' => decide (o'.outcome = "success")).length,
           ((l.filter fun o' => decide (o'.model_id = o.model_id)).filter
              fun o' => decide (0 < o'.latency_ms)).map fun o' => o'.latency_ms⟩ := by
        by_cases h0 : (l.filter fun o' => decide (o'.model_id = o.model_id)) = []
        · rw [if_pos h0, h0]
          rfl
        · rw [if_neg h0]
          rfl
      rw [hgetD, statsUpd_mk]
    · have hne : k ≠ o.model_id := fun h => hk h.symm
      rw [alookup_statsIns_ne _ _ hne, ih]
      have hfo : ((l ++ [o]).filter fun o' => decide (o'.model_id = k)) =
          l.filter fun o' => decide (o'.model_id = k) := by
        simp [List.filter_append, hk]
      rw [hfo]

/-- C10: for every model id with at least one recorded outcome, the
`success_rate` reported by `get_stats` equals `get_success_rate(id)`; when
the id also has an outcome with positive latency, the reported
`avg_latency_ms` equals `get_avg_latency(id)`; ids with no recorded outcome
are absent from `get_stats` although `get_success_rate` returns the 1.0
default for them. -/
theorem getStats_agrees (outcomes : List OutcomeRecord) (modelId : String) :
    ((∃ o ∈ outcomes, o.model_id = modelId) →
      ∃ e, alookup modelId (getStats outcomes) = some e ∧
        e.success_rate = getSuccessRate outcomes modelId ∧
        ((∃ o ∈ outcomes, o.model_id = modelId ∧ 0 < o.latency_ms) →
          e.avg_latency_ms = getAvgLatency outcomes modelId)) ∧
    ((¬ ∃ o ∈ outcomes, o.model_id = modelId) →
      alookup modelId (getStats outcomes) = none ∧
        getSuccessRate outcomes modelId = 1) := by
  have hmap : alookup modelId (getStats outcomes) =
      (alookup modelId (statsRaw outcomes)).map mkStatEntry := by
    unfold getStats
    exact alookup_map_value _ _ _
  rw [alookup_statsRaw] at hmap
  have hgsr : getSuccessRate outcomes modelId =
      if (outcomes.filter fun o => decide (o.model_id = modelId)).isEmpty then 1
      else (((outcomes.filter fun o => decide (o.model_id = modelId)).filter
          fun o => decide (o.outcome = "success")).length : ℚ) /
        ((outcomes.filter fun o => decide (o.model_id = modelId)).length : ℚ) := rfl
  constructor
  · intro hex
    have hne : (outcomes.filter fun o => decide (o.model_id = modelId)) ≠ [] := by
      obtain ⟨o, ho, hid⟩ := hex
      intro h0
      rw [List.filter_eq_nil_iff] at h0
      exact h0 o ho (by simp [hid])
    rw [if_neg hne] at hmap
    have hlen : 0 < (outcomes.filter fun o => decide (o.model_id = modelId)).length :=
      List.length_pos.mpr hne
    have hmax : max (outcomes.filter fun o => decide (o.model_id = modelId)).length 1 =
        (outcomes.filter fun o => decide (o.model_id = modelId)).length :=
      Nat.max_eq_left hlen
    have hE : (outcomes.filter fun o => decide (o.model_id = modelId)).isEmpty = false := by
      cases hcase : (outcomes.filter fun o => decide (o.model_id = modelId)).isEmpty
      · rfl
      · exact absurd (List.isEmpty_iff.mp hcase) hne
    refine ⟨_, hmap, ?_, ?_⟩
    · show (((outcomes.filter fun o => decide (o.model_id = modelId)).filter
          fun o => decide (o.outcome = "success")).length : ℚ) /
        ((max (outcomes.filter fun o => decide (o.model_id = modelId)).length 1 : ℕ) : ℚ) =
        getSuccessRate outcomes modelId
      rw [hmax, hgsr, hE]
      simp
    · intro hexlat
      have hrelrel : (outcomes.filter fun o =>
            decide (o.model_id = modelId) && decide (0 < o.latency_ms)) =
          ((outcomes.filter fun o => decide (o.model_id = modelId)).filter
            fun o => decide (0 < o.latency_ms)) := by
        rw [List.filter_filter]
        apply List.filter_congr
        intro x _
        exact Bool.and_comm _ _
      have hlatne : ((outcomes.filter fun o => decide (o.model_id = modelId)).filter
          fun o => decide (0 < o.latency_ms)) ≠ [] := by
        obtain ⟨o, ho, hid, hlat⟩ := hexlat
        intro h0
        rw [List.filter_eq_nil_iff] at h0
        refine h0 o ?_ (by simp [hlat])
        rw [List.mem_filter]
        exact ⟨ho, by simp [hid]⟩
      have hlatE : ((outcomes.filter fun o => decide (o.model_id = modelId)).filter
          fun o => decide (0 < o.latency_ms)).isEmpty = false := by
        cases hcase : ((outcomes.filter fun o => decide (o.model_id = modelId)).filter
            fun o => decide (0 < o.latency_ms)).isEmpty
        · rfl
        · exact absurd (List.isEmpty_iff.mp hcase) hlatne
      have hlatlen : 0 < ((outcomes.filter fun o => decide (o.model_id = modelId)).filter
          fun o => decide (0 < o.latency_ms)).length := List.length_pos.mpr hlatne
      simp only [mkStatEntry, getAvgLatency]
      rw [hrelrel, hlatE]
      simp only [Bool.false_eq_true, if_false, List.length_map]
      rw [Nat.max_eq_left hlatlen, Int.cast_list_sum, List.map_map]
      rfl
  · intro hnex
    have hnil : (outcomes.filter fun o => decide (o.model_id = modelId)) = [] := by
      rw [List.filter_eq_nil_iff]
      intro a ha hpa
      exact hnex ⟨a, ha, by simpa using hpa⟩
    rw [if_pos hnil] at hmap
    refine ⟨by simpa using hmap, ?_⟩
    rw [hgsr, hnil]
    rfl

theorem getStats_agrees_witness :
    (∃ e, alookup "m" (getStats outcomesW10) = some e ∧
      e.success_rate = getSuccessRate outcomesW10 "m" ∧
      e.avg_latency_ms = getAvgLatency outcomesW10 "m") ∧
    alookup "q" (getStats outcomesW10) = none ∧ getSuccessRate outcomesW10 "q" = 1 := by
  constructor
  · obtain ⟨e, he, hsr, havg⟩ := (getStats_agrees outcomesW10 "m").1 (by decide)
    exact ⟨e, he, hsr, havg (by decide)⟩
  · exact (getStats_agrees outcomesW10 "q").2 (by decide)

end Krolik
